import Mathlib

/-!
Verification of the Tokenlay gateway contract described in the repository's
documentation.  The repository contains only documentation pages; the
gateway core (rule engine, usage store, model router, metadata resolver,
client header handling) is specified there but not implemented in this
repository, so the definitions below are shallow embeddings modelled from
the specification's own wording, with the documentation pages fixing the
concrete tables (provider key detection, header merging options).
-/

namespace Tokenlay

/-- Modelled from the spec: a scalar attribute value appearing in the
canonical metadata map consumed by the rule engine (tagged-variant
attribute-value model, §9 design notes). -/
inductive AttrValue where
  | str (s : String)
  | int (n : Int)
  | bool (b : Bool)
deriving DecidableEq, Repr

/-- Modelled from the spec: a numeric tag for the runtime type of an
attribute value, used to detect type mismatches during condition
evaluation. -/
def attrType : AttrValue → Nat
  | .str _ => 0
  | .int _ => 1
  | .bool _ => 2

/-- Modelled from the spec: the canonical attribute map produced by the
Metadata Resolver (string keys, scalar values). -/
abbrev Metadata := List (String × AttrValue)

/-- Modelled from the spec: per-scope usage counters of a `UsageWindow`:
request count and accumulated cost. -/
structure UsageCounts where
  requestCount : Nat
  costAccumulated : Nat
deriving DecidableEq, Repr

/-- Modelled from the spec: the usage snapshot read before evaluation,
keyed by scope key. -/
abbrev UsageSnapshot := List (String × UsageCounts)

/-- Modelled from the spec: which usage counter a threshold comparison
targets. -/
inductive UsageField where
  | count
  | cost
deriving DecidableEq, Repr

/-- Modelled from the spec: the value of the selected usage counter. -/
def fieldVal : UsageField → UsageCounts → Nat
  | .count, c => c.requestCount
  | .cost, c => c.costAccumulated

/-- Modelled from the spec: the comparison operators allowed in threshold
conditions on usage counters. -/
inductive CmpOp where
  | gt
  | ge
  | lt
  | le
  | eq
deriving DecidableEq, Repr

/-- Modelled from the spec: evaluation of a threshold comparison on
natural-number counters. -/
def cmpNat : CmpOp → Nat → Nat → Bool
  | .gt, a, b => decide (a > b)
  | .ge, a, b => decide (a ≥ b)
  | .lt, a, b => decide (a < b)
  | .le, a, b => decide (a ≤ b)
  | .eq, a, b => decide (a = b)

/-- Modelled from the spec: a provider/model pair named by a rule action. -/
structure ProviderModel where
  providerName : String
  modelId : String
deriving DecidableEq, Repr

/-- Modelled from the spec: the tagged action variant resulting from rule
evaluation. -/
inductive Action where
  | allow
  | routeTo (target : ProviderModel)
  | warn (message : String)
  | timeout (duration : Nat)
  | block (reason : String)
  | redirect (target : ProviderModel)
deriving DecidableEq, Repr

/-- Modelled from the spec: the condition language of a rule: boolean
expressions over equality/membership tests on metadata attributes and
threshold comparisons on usage counters within a named scope. -/
inductive Cond where
  | attrEq (key : String) (val : AttrValue)
  | attrMem (key : String) (vals : List AttrValue)
  | usageCmp (scope : String) (fld : UsageField) (op : CmpOp) (threshold : Nat)
  | and (a b : Cond)
  | or (a b : Cond)
deriving DecidableEq, Repr

/-- Modelled from the spec: condition evaluation against the metadata map
and the usage snapshot.  A missing attribute, a missing scope, or a type
mismatch makes the condition unevaluable, which is reported as `none`
(the rule-evaluation error case). -/
def condEval : Cond → Metadata → UsageSnapshot → Option Bool
  | .attrEq key val, m, _ =>
    match List.lookup key m with
    | none => none
    | some v => if attrType v = attrType val then some (decide (v = val)) else none
  | .attrMem key vals, m, _ =>
    match List.lookup key m with
    | none => none
    | some v => some (vals.contains v)
  | .usageCmp scope fld op threshold, _, u =>
    match List.lookup scope u with
    | none => none
    | some c => some (cmpNat op (fieldVal fld c) threshold)
  | .and a b, m, u =>
    match condEval a m u, condEval b m u with
    | some x, some y => some (x && y)
    | _, _ => none
  | .or a b, m, u =>
    match condEval a m u, condEval b m u with
    | some x, some y => some (x || y)
    | _, _ => none

/-- Modelled from the spec: a rule is a priority, a condition and an
action; a `RuleSet` is the ordered list of rules (ascending priority,
ties broken by declaration order). -/
structure Rule where
  priority : Int
  condition : Cond
  action : Action
deriving DecidableEq, Repr

/-- Modelled from the spec: a rule matches exactly when its condition
evaluates to `true`; an unevaluable condition counts as not matching
(fail open to the next rule). -/
def ruleMatches (r : Rule) (m : Metadata) (u : UsageSnapshot) : Bool :=
  (condEval r.condition m u).getD false

/-- Modelled from the spec: the Rule Engine's `evaluate`: iterate the rule
set in order, return the action of the first rule whose condition is
true, and `allow` (full passthrough) when no rule matches. -/
def evaluate (m : Metadata) (u : UsageSnapshot) : List Rule → Action
  | [] => .allow
  | r :: rest => if ruleMatches r m u then r.action else evaluate m u rest

/-- Modelled from the spec: calling `evaluate` twice on the same inputs,
as a pair of results. -/
def callTwice (m : Metadata) (u : UsageSnapshot) (rs : List Rule) : Action × Action :=
  (evaluate m u rs, evaluate m u rs)

/-- Modelled from the spec: a `Decision` wraps the single resolved action
for a request. -/
structure Decision where
  action : Action
deriving DecidableEq, Repr

/-- Whether an action is the blocking variant. -/
def isBlock : Action → Bool
  | .block _ => true
  | _ => false

/-- Whether an action is the redirect variant. -/
def isRedirect : Action → Bool
  | .redirect _ => true
  | _ => false

/-- Modelled from the spec: the providers of the documented key-detection
table. -/
inductive Provider where
  | openai
  | anthropic
  | google
  | awsBedrock
  | unknown
deriving DecidableEq, Repr

/-- Whether the first list of characters starts with the second list of
characters (the pattern). -/
def charsStart : List Char → List Char → Bool
  | [], _ => true
  | _ :: _, [] => false
  | p :: ps, c :: cs => if p = c then charsStart ps cs else false

/-- Whether the string starts with the given pattern, on the underlying
character lists. -/
def strStarts (s pat : String) : Bool := charsStart pat.data s.data

/-- Modelled from the spec: automatic provider detection from the API key,
following the documented key-pattern table; the longer pattern is checked
first so that Anthropic keys are not mistaken for OpenAI keys. -/
def inferProvider (key : String) : Provider :=
  if strStarts key ("sk-ant-") then .anthropic
  else if strStarts key ("sk-") then .openai
  else if strStarts key ("AIza") then .google
  else if strStarts key ("AKIA") then .awsBedrock
  else .unknown

/-- Canonical name of a detected provider. -/
def providerNameOf : Provider → String
  | .openai => "openai"
  | .anthropic => "anthropic"
  | .google => "google"
  | .awsBedrock => "aws-bedrock"
  | .unknown => "unknown"

/-- Modelled from the spec: the concrete target resolved by the Model
Router. -/
structure ProviderTarget where
  providerName : String
  modelId : String
  baseURL : String
  credentialRef : String
deriving DecidableEq, Repr

/-- Modelled from the spec: the router's static configuration: the default
target, the optionally explicit provider, the caller's provider API key
(for automatic detection), and the per-provider base URL and credential
reference tables. -/
structure RouterConfig where
  defaultTarget : ProviderTarget
  explicitProviderName : Option String
  providerApiKey : String
  baseURLFor : String → String
  credentialRefFor : String → String

/-- Modelled from the spec: expansion of a rule-named provider/model pair
into a full target using the router's tables. -/
def mkTarget (cfg : RouterConfig) (pm : ProviderModel) : ProviderTarget :=
  { providerName := pm.providerName
    modelId := pm.modelId
    baseURL := cfg.baseURLFor pm.providerName
    credentialRef := cfg.credentialRefFor pm.providerName }

/-- Modelled from the spec: the target for an explicit caller-supplied
model: the model is used verbatim and the provider is the explicitly
configured one, or else is detected from the provider API key. -/
def explicitTarget (cfg : RouterConfig) (m : String) : ProviderTarget :=
  let p := cfg.explicitProviderName.getD (providerNameOf (inferProvider cfg.providerApiKey))
  { providerName := p
    modelId := m
    baseURL := cfg.baseURLFor p
    credentialRef := cfg.credentialRefFor p }

/-- Modelled from the spec: the Model Router's `route`, following the
documented resolution order: Block produces no target; Redirect uses its
target; else an explicit model is used verbatim; else a RouteTo action
uses its target; else the configured default target. -/
def route (cfg : RouterConfig) (d : Decision) (explicitModel : Option String) :
    Option ProviderTarget :=
  match d.action with
  | .block _ => none
  | .redirect t => some (mkTarget cfg t)
  | a =>
    match explicitModel with
    | some m => some (explicitTarget cfg m)
    | none =>
      match a with
      | .routeTo t => some (mkTarget cfg t)
      | _ => some cfg.defaultTarget

/-- Modelled from the spec: the structured error body of the documented
error response shape, with code, message and optional retry-after. -/
structure ErrorBody where
  code : Nat
  message : String
  retryAfter : Option Nat
deriving DecidableEq, Repr

/-- Modelled from the spec: the observable outcome of handling a decision:
either the request is forwarded to a provider target (the only step that
incurs upstream cost) or a structured error response is returned without
any provider call. -/
inductive Outcome where
  | forward (t : ProviderTarget)
  | errorOut (e : ErrorBody)
deriving DecidableEq, Repr

/-- Whether the outcome reaches the Provider Adapter (and hence incurs
upstream cost). -/
def providerCalled : Outcome → Bool
  | .forward _ => true
  | .errorOut _ => false

/-- Modelled from the spec: the orchestrator's handling of a decision: a
Timeout decision bypasses the Provider Adapter and returns a 429
rate-limit response whose retry-after equals the decision's duration; a
Block decision bypasses forwarding and returns a 403 response carrying
the rule's reason; any other decision is routed and forwarded. -/
def handleDecision (cfg : RouterConfig) (d : Decision) (explicitModel : Option String) :
    Outcome :=
  match d.action with
  | .timeout dur => .errorOut ⟨429, "rate limit exceeded", some dur⟩
  | .block reason => .errorOut ⟨403, reason, none⟩
  | _ =>
    match route cfg d explicitModel with
    | some t => .forward t
    | none => .errorOut ⟨500, "internal error", none⟩

/-- Modelled from the spec: the Usage Store's state: the set of request
ids whose commit has already been applied, and the per-scope-key
counters. -/
structure StoreState where
  committed : List String
  counts : List (String × UsageCounts)
deriving DecidableEq, Repr

/-- Modelled from the spec: the empty usage store. -/
def emptyStore : StoreState :=
  { committed := [], counts := [] }

/-- Modelled from the spec: increment the counters of one scope key by one
request and the given cost, creating the window lazily on first
observation. -/
def bumpKey : List (String × UsageCounts) → String → Nat → List (String × UsageCounts)
  | [], k, c => [(k, ⟨1, c⟩)]
  | (k0, u) :: rest, k, c =>
    if k0 = k then (k0, ⟨u.requestCount + 1, u.costAccumulated + c⟩) :: rest
    else (k0, u) :: bumpKey rest k c

/-- Modelled from the spec: the Usage Store's `commit`: a commit for an
already-committed request id is a no-op (idempotence per request id);
otherwise every scope key's counters are incremented and the request id
is recorded. -/
def commit (st : StoreState) (requestId : String) (scopeKeys : List String)
    (finalCost : Nat) : StoreState :=
  if requestId ∈ st.committed then st
  else
    { committed := requestId :: st.committed
      counts := scopeKeys.foldl (fun acc k => bumpKey acc k finalCost) st.counts }

/-- Modelled from the spec: the current request count recorded for a scope
key. -/
def countOf (st : StoreState) (k : String) : Nat :=
  ((List.lookup k st.counts).getD ⟨0, 0⟩).requestCount

/-- Modelled from the spec: commit a list of requests, each with the same
single scope key and cost, one commit per request id. -/
def commitAll (st : StoreState) (rids : List String) (k : String) (c : Nat) : StoreState :=
  rids.foldl (fun acc rid => commit acc rid [k] c) st

/-- Modelled from the spec: a raw scalar metadata value as it arrives in
the inbound request body, before coercion. -/
inductive Scalar where
  | str (s : String)
  | num (n : Int)
  | bool (b : Bool)
  | null
deriving DecidableEq, Repr

/-- Modelled from the spec: coercion of an unknown or malformed metadata
value to string form; coercion is total, so no value is ever rejected. -/
def coerceScalar : Scalar → String
  | .str s => s
  | .num n => toString n
  | .bool true => "true"
  | .bool false => "false"
  | .null => "null"

/-- Modelled from the spec: the raw inbound identity/context data: header
pairs and the request body's metadata object. -/
structure RawRequest where
  headers : List (String × String)
  bodyMeta : List (String × Scalar)

/-- Modelled from the spec: the merged attribute list before the anonymous
fallback: body metadata takes precedence over header values on conflict,
and every value is coerced to string form. -/
def mergedAttrs (req : RawRequest) : Metadata :=
  req.bodyMeta.map (fun p => (p.1, AttrValue.str (coerceScalar p.2))) ++
    req.headers.map (fun p => (p.1, AttrValue.str p.2))

/-- Modelled from the spec: whether any identity metadata is present in
the merged attributes. -/
def hasIdentity (m : Metadata) : Bool :=
  (List.lookup ("User-ID") m).isSome

/-- Modelled from the spec: the Metadata Resolver: a total function that
never rejects a request; when no identity metadata is present it resolves
to an anonymous identity with the guest tier. -/
def resolveMeta (req : RawRequest) : Metadata :=
  let merged := mergedAttrs req
  if hasIdentity merged then merged
  else ("User-ID", AttrValue.str ("anonymous")) ::
    ("tier", AttrValue.str ("guest")) :: merged

/-- Modelled from the spec: the gateway's decision for a raw request:
metadata resolution followed by rule evaluation. -/
def decisionFor (req : RawRequest) (u : UsageSnapshot) (rs : List Rule) : Action :=
  evaluate (resolveMeta req) u rs

/-- Embedded from the documented edge middleware and FastAPI examples: the
outcome of bearer-token verification seen by `extractUserContext`. -/
inductive AuthResult where
  | noToken
  | invalidToken (message : String)
  | ok (sub : String) (email : String) (role : Option String) (org : String)
deriving DecidableEq, Repr

/-- Embedded from the documented `extractUserContext` / `get_user_context`
examples: a missing or invalid token yields an anonymous guest context;
a verified token yields the claims as headers, with role defaulting to
`user`. -/
def extractUserContext : AuthResult → List (String × String)
  | .noToken =>
    [("User-ID", "anonymous"), ("User-Role", "guest"), ("Auth-Status", "no-token")]
  | .invalidToken e =>
    [("User-ID", "anonymous"), ("User-Role", "guest"),
     ("Auth-Status", "invalid-token"), ("Auth-Error", e)]
  | .ok sub email role org =>
    [("User-ID", sub), ("User-Email", email), ("User-Role", role.getD ("user")),
     ("Organization-ID", org), ("Auth-Status", "authenticated")]

/-- Modelled from the spec: the client's stored state relevant to header
handling: its default headers, as a key-indexed map. -/
structure TokenlayClient where
  apiKey : String
  defaultHeaders : String → Option String

/-- Modelled from the spec: the per-request options of `process`:
request-specific headers, the replace-all flag, and the list of default
header keys to exclude. -/
structure ProcessOptions where
  headers : String → Option String
  replaceHeaders : Bool
  excludeHeaders : List String

/-- Modelled from the spec: the headers actually sent by `process`: with
`replaceHeaders` exactly the per-request headers are sent; otherwise the
defaults (minus the excluded keys) merged key-by-key with the per-request
headers, the per-request value winning on conflict. -/
def sentHeaders (c : TokenlayClient) (o : ProcessOptions) : String → Option String :=
  fun k =>
    if o.replaceHeaders then o.headers k
    else
      match o.headers k with
      | some v => some v
      | none => if k ∈ o.excludeHeaders then none else c.defaultHeaders k

/-- Modelled from the spec: `process` as observed through its headers: it
computes the headers to send and leaves the client's stored defaults
unchanged. -/
def process (c : TokenlayClient) (o : ProcessOptions) :
    (String → Option String) × TokenlayClient :=
  (sentHeaders c o, c)

/-- Example metadata of a free-tier caller, from the documentation's
worked example. -/
def metaW : Metadata := [("tier", AttrValue.str ("free"))]

/-- Example usage snapshot: the free-tier scope has reached 50 requests. -/
def usageW : UsageSnapshot := [("user-1", ⟨50, 120⟩)]

/-- Example rule from the documentation: free-tier users at 50 requests
are timed out for 600 seconds. -/
def ruleW : Rule :=
  { priority := 1
    condition := Cond.and (Cond.attrEq ("tier") (AttrValue.str ("free")))
      (Cond.usageCmp ("user-1") UsageField.count CmpOp.ge 50)
    action := Action.timeout 600 }

/-- Example rule routing pro-tier users to gpt-4. -/
def ruleProW : Rule :=
  { priority := 2
    condition := Cond.attrEq ("tier") (AttrValue.str ("pro"))
    action := Action.routeTo ⟨"openai", "gpt-4"⟩ }

/-- Example rule set in priority order. -/
def rsW : List Rule := [ruleW, ruleProW]

/-- Example rule whose condition references an attribute absent from
`metaW`, hence unevaluable there. -/
def badRuleW : Rule :=
  { priority := 0
    condition := Cond.attrEq ("plan") (AttrValue.str ("x"))
    action := Action.block ("broken") }

/-- Example default provider target. -/
def target0 : ProviderTarget :=
  ⟨"openai", "gpt-4o-mini", "https://api.openai.com/v1", "cred-openai"⟩

/-- Example router configuration with an Anthropic-keyed client and no
explicit provider. -/
def cfg0 : RouterConfig :=
  { defaultTarget := target0
    explicitProviderName := none
    providerApiKey := "sk-ant-api03-xyz"
    baseURLFor := fun _ => "https://gateway.example/v1"
    credentialRefFor := fun _ => "cred-default" }

/-- Example redirect decision whose target model differs from the
caller's explicit model. -/
def d0 : Decision := ⟨Action.redirect ⟨"anthropic", "claude-3-5-sonnet"⟩⟩

/-- Example raw request carrying no identity metadata. -/
def req0 : RawRequest :=
  { headers := [("X-Feature", "chat")]
    bodyMeta := [("priority", Scalar.num 1)] }

/-- Example client with stored default headers, from the global-headers
documentation page. -/
def client0 : TokenlayClient :=
  { apiKey := "sk-test"
    defaultHeaders := fun k =>
      if k = "User-ID" then some ("user-123")
      else if k = "Organization" then some ("acme-corp")
      else none }

/-- Example per-request options overriding the user id and excluding the
default organization header. -/
def opts0 : ProcessOptions :=
  { headers := fun k => if k = "User-ID" then some ("different-user-456") else none
    replaceHeaders := false
    excludeHeaders := ["Organization"] }

/-- Helper: evaluation always resolves, to either the default `allow` or
the action of some rule of the set. -/
theorem evaluate_allow_or_mem (m : Metadata) (u : UsageSnapshot) (rs : List Rule) :
    evaluate m u rs = Action.allow ∨ ∃ r ∈ rs, evaluate m u rs = r.action := by
  induction rs with
  | nil => exact Or.inl rfl
  | cons r0 rest ih =>
    by_cases h : ruleMatches r0 m u
    · exact Or.inr ⟨r0, List.mem_cons_self r0 rest, by simp [evaluate, h]⟩
    · rcases ih with h1 | ⟨r, hr, hv⟩
      · exact Or.inl (by simpa [evaluate, h] using h1)
      · exact Or.inr ⟨r, List.mem_cons_of_mem _ hr, by simpa [evaluate, h] using hv⟩

/-- Claim C1: for every rule set and inputs, the rule engine returns the
action of the first rule in iteration order whose condition evaluates to
true, and when no rule matches (including the empty rule set) it returns
the plain allow action, never an unresolved or error result. -/
theorem evaluate_first_match :
    (∀ (m : Metadata) (u : UsageSnapshot) (rs : List Rule) (r : Rule),
        List.find? (fun x => ruleMatches x m u) rs = some r →
        evaluate m u rs = r.action) ∧
    (∀ (m : Metadata) (u : UsageSnapshot) (rs : List Rule),
        (∀ r ∈ rs, ruleMatches r m u = false) → evaluate m u rs = Action.allow) ∧
    (∀ (m : Metadata) (u : UsageSnapshot), evaluate m u [] = Action.allow) := by
  refine ⟨?_, ?_, fun m u => rfl⟩
  · intro m u rs r h
    induction rs with
    | nil => simp [List.find?] at h
    | cons r0 rest ih =>
      by_cases h0 : ruleMatches r0 m u
      · rw [@List.find?_cons_of_pos _ (fun x => ruleMatches x m u) r0 rest h0] at h
        cases h
        simp [evaluate, h0]
      · rw [@List.find?_cons_of_neg _ (fun x => ruleMatches x m u) r0 rest h0] at h
        simp [evaluate, h0, ih h]
  · intro m u rs h
    induction rs with
    | nil => rfl
    | cons r0 rest ih =>
      have h0 : ruleMatches r0 m u = false := h r0 (List.mem_cons_self r0 rest)
      simp only [evaluate, h0, Bool.false_eq_true, if_false]
      exact ih fun r hr => h r (List.mem_cons_of_mem _ hr)

/-- Witness for C1: on the documented free-tier example, the first
matching rule is the timeout rule and the engine returns its action. -/
theorem evaluate_first_match_witness :
    List.find? (fun x => ruleMatches x metaW usageW) rsW = some ruleW ∧
    evaluate metaW usageW rsW = Action.timeout 600 :=
  ⟨by decide, evaluate_first_match.1 metaW usageW rsW ruleW (by decide)⟩

/-- Claim C4: the rule engine is a pure, deterministic function: identical
inputs yield the same decision, and calling it twice on the same inputs
yields the same decision both times. -/
theorem evaluate_deterministic (m1 m2 : Metadata) (u1 u2 : UsageSnapshot)
    (rs1 rs2 : List Rule) (h1 : m1 = m2) (h2 : u1 = u2) (h3 : rs1 = rs2) :
    evaluate m1 u1 rs1 = evaluate m2 u2 rs2 ∧
    (callTwice m1 u1 rs1).1 = (callTwice m1 u1 rs1).2 := by
  subst h1
  subst h2
  subst h3
  exact ⟨rfl, rfl⟩

/-- Witness for C4 at the concrete example inputs. -/
theorem evaluate_deterministic_witness :
    metaW = metaW ∧
    evaluate metaW usageW rsW = evaluate metaW usageW rsW ∧
    (callTwice metaW usageW rsW).1 = (callTwice metaW usageW rsW).2 :=
  ⟨rfl, (evaluate_deterministic metaW metaW usageW usageW rsW rsW rfl rfl rfl).1,
    (evaluate_deterministic metaW metaW usageW usageW rsW rsW rfl rfl rfl).2⟩

/-- Claim C6: a condition that is unevaluable against the given inputs (a
referenced attribute is missing, or an equality test has a type
mismatch) makes the rule not match rather than raising, and evaluation
continues with the next rule, so the request path never fails. -/
theorem rule_eval_error_fails_open :
    (∀ (key : String) (val : AttrValue) (m : Metadata) (u : UsageSnapshot),
        List.lookup key m = none → condEval (Cond.attrEq key val) m u = none) ∧
    (∀ (key : String) (val v : AttrValue) (m : Metadata) (u : UsageSnapshot),
        List.lookup key m = some v → attrType v ≠ attrType val →
        condEval (Cond.attrEq key val) m u = none) ∧
    (∀ (r : Rule) (m : Metadata) (u : UsageSnapshot) (rest : List Rule),
        condEval r.condition m u = none →
        ruleMatches r m u = false ∧
        evaluate m u (r :: rest) = evaluate m u rest) := by
  refine ⟨?_, ?_, ?_⟩
  · intro key val m u h
    simp [condEval, h]
  · intro key val v m u h hty
    simp [condEval, h, hty]
  · intro r m u rest h
    have hm : ruleMatches r m u = false := by simp [ruleMatches, h]
    exact ⟨hm, by simp [evaluate, hm]⟩

/-- Witness for C6: a rule whose condition reads the absent attribute
named plan does not match and evaluation proceeds with the remaining
rules. -/
theorem rule_eval_error_fails_open_witness :
    List.lookup ("plan") metaW = none ∧
    condEval (Cond.attrEq ("plan") (AttrValue.str ("x"))) metaW usageW = none ∧
    ruleMatches badRuleW metaW usageW = false ∧
    evaluate metaW usageW (badRuleW :: rsW) = evaluate metaW usageW rsW :=
  ⟨by decide,
    rule_eval_error_fails_open.1 ("plan") (AttrValue.str ("x")) metaW usageW (by decide),
    (rule_eval_error_fails_open.2.2 badRuleW metaW usageW rsW (by decide)).1,
    (rule_eval_error_fails_open.2.2 badRuleW metaW usageW rsW (by decide)).2⟩

/-- Helper: bumping a scope key increments its recorded request count by
exactly one. -/
theorem lookup_bumpKey_requestCount (l : List (String × UsageCounts)) (k : String)
    (c : Nat) :
    ((List.lookup k (bumpKey l k c)).getD ⟨0, 0⟩).requestCount
      = ((List.lookup k l).getD ⟨0, 0⟩).requestCount + 1 := by
  induction l with
  | nil => simp [bumpKey, List.lookup]
  | cons p rest ih =>
    obtain ⟨k0, u⟩ := p
    by_cases h : k0 = k
    · subst h
      simp [bumpKey, List.lookup]
    · have hb : (k == k0) = false := by
        simp only [beq_eq_false_iff_ne, ne_eq]
        exact fun he => h he.symm
      simp [bumpKey, h, List.lookup, hb, ih]

/-- Helper: after a commit, the request id is recorded as committed. -/
theorem commit_committed_mem (st : StoreState) (rid : String) (ks : List String)
    (c : Nat) : rid ∈ (commit st rid ks c).committed := by
  by_cases h : rid ∈ st.committed <;> simp [commit, h]

/-- Helper: committing the same request id a second time is a no-op. -/
theorem commit_idem (st : StoreState) (rid : String) (ks : List String) (c : Nat) :
    commit (commit st rid ks c) rid ks c = commit st rid ks c := by
  have h := commit_committed_mem st rid ks c
  rw [commit, if_pos h]

/-- Helper: committing a list of fresh, pairwise-distinct request ids for
one scope key adds exactly one request per id to that key's count. -/
theorem commitAll_count (rids : List String) :
    ∀ (st : StoreState) (k : String) (c : Nat), rids.Nodup →
      (∀ r ∈ rids, r ∉ st.committed) →
      countOf (commitAll st rids k c) k = countOf st k + rids.length := by
  induction rids with
  | nil =>
    intro st k c _ _
    simp [commitAll]
  | cons r rest ih =>
    intro st k c hnd hfresh
    obtain ⟨hnr, hndr⟩ := List.nodup_cons.mp hnd
    have hr : r ∉ st.committed := hfresh r (List.mem_cons_self r rest)
    have hstep : commit st r [k] c =
        { committed := r :: st.committed, counts := bumpKey st.counts k c } := by
      simp [commit, hr]
    have hfresh2 : ∀ r2 ∈ rest, r2 ∉ (commit st r [k] c).committed := by
      intro r2 h2
      rw [hstep]
      simp only [List.mem_cons, not_or]
      exact ⟨fun he => hnr (he ▸ h2), hfresh r2 (List.mem_cons_of_mem _ h2)⟩
    have hall : commitAll st (r :: rest) k c = commitAll (commit st r [k] c) rest k c :=
      rfl
    have hone : countOf (commit st r [k] c) k = countOf st k + 1 := by
      rw [hstep]
      simp [countOf, lookup_bumpKey_requestCount]
    rw [hall, ih (commit st r [k] c) k c hndr hfresh2, hone]
    simp [List.length_cons]
    omega

/-- Claim C5: usage commits are idempotent per request id — committing the
same request twice leaves the same state as committing it once — and N
distinct requests for one scope key, each committed exactly once, yield
a final request count of exactly N. -/
theorem commit_idempotent_and_exact_counts :
    (∀ (st : StoreState) (rid : String) (ks : List String) (c : Nat),
        commit (commit st rid ks c) rid ks c = commit st rid ks c) ∧
    (∀ (rids : List String) (k : String) (c : Nat), rids.Nodup →
        countOf (commitAll emptyStore rids k c) k = rids.length) := by
  constructor
  · exact commit_idem
  · intro rids k c hnd
    have hfresh : ∀ r ∈ rids, r ∉ emptyStore.committed := by
      intro r _
      simp [emptyStore]
    have h := commitAll_count rids emptyStore k c hnd hfresh
    have h0 : countOf emptyStore k = 0 := by simp [countOf, emptyStore, List.lookup]
    rw [h, h0]
    omega

/-- Witness for C5: a retried commit is a no-op and three distinct
committed requests yield a count of three. -/
theorem commit_idempotent_witness :
    List.Nodup ["r1", "r2", "r3"] ∧
    commit (commit emptyStore ("r1") ["user-1"] 5) ("r1") ["user-1"] 5
      = commit emptyStore ("r1") ["user-1"] 5 ∧
    countOf (commitAll emptyStore ["r1", "r2", "r3"] ("user-1") 5) ("user-1") = 3 :=
  ⟨by decide,
    commit_idempotent_and_exact_counts.1 emptyStore ("r1") ["user-1"] 5,
    commit_idempotent_and_exact_counts.2 ["r1", "r2", "r3"] ("user-1") 5 (by decide)⟩

/-- Claim C3: a Block or Timeout decision never reaches the Provider
Adapter — no upstream call is made and hence no cost incurred — and the
structured responses carry the decision's duration as retry-after (429
for Timeout) and the rule's reason (403 for Block). -/
theorem block_timeout_bypass_provider :
    (∀ (cfg : RouterConfig) (dur : Nat) (em : Option String),
        handleDecision cfg ⟨Action.timeout dur⟩ em
          = Outcome.errorOut ⟨429, "rate limit exceeded", some dur⟩ ∧
        providerCalled (handleDecision cfg ⟨Action.timeout dur⟩ em) = false) ∧
    (∀ (cfg : RouterConfig) (reason : String) (em : Option String),
        handleDecision cfg ⟨Action.block reason⟩ em
          = Outcome.errorOut ⟨403, reason, none⟩ ∧
        providerCalled (handleDecision cfg ⟨Action.block reason⟩ em) = false) := by
  constructor
  · intro cfg dur em
    exact ⟨rfl, rfl⟩
  · intro cfg reason em
    exact ⟨rfl, rfl⟩

/-- Counterexample for C2 as stated: a Redirect decision whose action is
not Block ignores the caller's explicit model and uses the redirect
target's model instead. -/
theorem explicit_model_not_used_on_redirect :
    isBlock d0.action = false ∧
    (route cfg0 d0 (some ("gpt-4"))).map ProviderTarget.modelId
      = some ("claude-3-5-sonnet") ∧
    (route cfg0 d0 (some ("gpt-4"))).map ProviderTarget.modelId ≠ some ("gpt-4") := by
  refine ⟨rfl, rfl, ?_⟩
  decide

/-- Claim C2 (amended): for a request with an explicit model, the resolved
target's model equals that model unless the decision's action is Block
or Redirect. -/
theorem explicit_model_overrides_otherwise (cfg : RouterConfig) (d : Decision)
    (m : String) (hb : isBlock d.action = false) (hr : isRedirect d.action = false) :
    (route cfg d (some m)).map ProviderTarget.modelId = some m := by
  obtain ⟨a⟩ := d
  cases a <;> simp_all [route, isBlock, isRedirect, explicitTarget]

/-- Witness for amended C2 at a concrete allow decision. -/
theorem explicit_model_overrides_witness :
    isBlock (Decision.mk Action.allow).action = false ∧
    isRedirect (Decision.mk Action.allow).action = false ∧
    (route cfg0 (Decision.mk Action.allow) (some ("gpt-4"))).map ProviderTarget.modelId
      = some ("gpt-4") :=
  ⟨rfl, rfl,
    explicit_model_overrides_otherwise cfg0 (Decision.mk Action.allow) ("gpt-4") rfl rfl⟩

/-- Claim C7: the router follows exactly the documented resolution order:
Block yields no target; Redirect uses its target; otherwise an explicit
model is used verbatim with the provider detected from the key when not
explicitly configured; otherwise RouteTo uses its target; otherwise the
configured default target is used. -/
theorem route_resolution_order :
    (∀ (cfg : RouterConfig) (reason : String) (em : Option String),
        route cfg ⟨Action.block reason⟩ em = none) ∧
    (∀ (cfg : RouterConfig) (t : ProviderModel) (em : Option String),
        route cfg ⟨Action.redirect t⟩ em = some (mkTarget cfg t)) ∧
    (∀ (cfg : RouterConfig) (d : Decision) (m : String),
        isBlock d.action = false → isRedirect d.action = false →
        route cfg d (some m) = some (explicitTarget cfg m)) ∧
    (∀ (cfg : RouterConfig) (t : ProviderModel),
        route cfg ⟨Action.routeTo t⟩ none = some (mkTarget cfg t)) ∧
    (∀ cfg : RouterConfig, route cfg ⟨Action.allow⟩ none = some cfg.defaultTarget) ∧
    (∀ (cfg : RouterConfig) (msg : String),
        route cfg ⟨Action.warn msg⟩ none = some cfg.defaultTarget) ∧
    (∀ (cfg : RouterConfig) (dur : Nat),
        route cfg ⟨Action.timeout dur⟩ none = some cfg.defaultTarget) ∧
    (∀ (cfg : RouterConfig) (m : String), cfg.explicitProviderName = none →
        (explicitTarget cfg m).providerName
          = providerNameOf (inferProvider cfg.providerApiKey)) := by
  refine ⟨fun cfg r em => rfl, fun cfg t em => rfl, ?_, fun cfg t => rfl, fun cfg => rfl,
    fun cfg msg => rfl, fun cfg dur => rfl, ?_⟩
  · intro cfg d m hb hr
    obtain ⟨a⟩ := d
    cases a <;> simp_all [route, isBlock, isRedirect]
  · intro cfg m h
    simp [explicitTarget, h]

/-- Witness for C7: a warn decision with an explicit model resolves to the
explicit target, whose provider is detected from the Anthropic key. -/
theorem route_resolution_order_witness :
    isBlock (Decision.mk (Action.warn ("w"))).action = false ∧
    isRedirect (Decision.mk (Action.warn ("w"))).action = false ∧
    route cfg0 (Decision.mk (Action.warn ("w"))) (some ("gpt-4o"))
      = some (explicitTarget cfg0 ("gpt-4o")) ∧
    cfg0.explicitProviderName = none ∧
    (explicitTarget cfg0 ("gpt-4o")).providerName
      = providerNameOf (inferProvider cfg0.providerApiKey) :=
  ⟨rfl, rfl,
    route_resolution_order.2.2.1 cfg0 (Decision.mk (Action.warn ("w"))) ("gpt-4o") rfl rfl,
    rfl, route_resolution_order.2.2.2.2.2.2.2 cfg0 ("gpt-4o") rfl⟩

/-- Helper: every attribute in the merged header/body map is a coerced
string value. -/
theorem mem_mergedAttrs_str (req : RawRequest) (p : String × AttrValue)
    (hp : p ∈ mergedAttrs req) : ∃ s, p.2 = AttrValue.str s := by
  rcases List.mem_append.mp hp with h | h
  · rcases List.mem_map.mp h with ⟨a, _, ha⟩
    exact ⟨coerceScalar a.2, by rw [← ha]⟩
  · rcases List.mem_map.mp h with ⟨a, _, ha⟩
    exact ⟨a.2, by rw [← ha]⟩

/-- Claim C8: the Metadata Resolver never rejects a request: every
resolved attribute value is in string form; a request with no identity
metadata resolves to an anonymous identity with the guest tier and the
gateway still produces a decision (allow or a rule's action); and the
documented user-context extraction yields the guest role whenever no
valid token is present. -/
theorem metadata_resolver_never_rejects :
    (∀ (req : RawRequest) (p : String × AttrValue),
        p ∈ resolveMeta req → ∃ s, p.2 = AttrValue.str s) ∧
    (∀ req : RawRequest, hasIdentity (mergedAttrs req) = false →
        List.lookup ("User-ID") (resolveMeta req) = some (AttrValue.str ("anonymous")) ∧
        List.lookup ("tier") (resolveMeta req) = some (AttrValue.str ("guest"))) ∧
    (∀ (req : RawRequest) (u : UsageSnapshot) (rs : List Rule),
        decisionFor req u rs = Action.allow ∨
          ∃ r ∈ rs, decisionFor req u rs = r.action) ∧
    List.lookup ("User-Role") (extractUserContext AuthResult.noToken) = some ("guest") ∧
    (∀ e, List.lookup ("User-Role") (extractUserContext (AuthResult.invalidToken e))
        = some ("guest")) := by
  refine ⟨?_, ?_, ?_, by decide, fun e => ?_⟩
  · intro req p hp
    simp only [resolveMeta] at hp
    by_cases h : hasIdentity (mergedAttrs req)
    · rw [if_pos h] at hp
      exact mem_mergedAttrs_str req p hp
    · rw [if_neg h] at hp
      rcases List.mem_cons.mp hp with h1 | hp2
      · exact ⟨"anonymous", by rw [h1]⟩
      · rcases List.mem_cons.mp hp2 with h2 | hp3
        · exact ⟨"guest", by rw [h2]⟩
        · exact mem_mergedAttrs_str req p hp3
  · intro req h
    constructor
    · simp [resolveMeta, h, List.lookup]
    · simp [resolveMeta, h, List.lookup]
  · intro req u rs
    exact evaluate_allow_or_mem (resolveMeta req) u rs
  · simp [extractUserContext, List.lookup]

/-- Witness for C8: a request with no identity metadata resolves to the
anonymous guest identity, and an invalid token yields the guest role. -/
theorem metadata_resolver_witness :
    hasIdentity (mergedAttrs req0) = false ∧
    List.lookup ("User-ID") (resolveMeta req0) = some (AttrValue.str ("anonymous")) ∧
    List.lookup ("tier") (resolveMeta req0) = some (AttrValue.str ("guest")) ∧
    List.lookup ("User-Role") (extractUserContext (AuthResult.invalidToken ("expired")))
      = some ("guest") :=
  ⟨by decide, (metadata_resolver_never_rejects.2.1 req0 (by decide)).1,
    (metadata_resolver_never_rejects.2.1 req0 (by decide)).2,
    metadata_resolver_never_rejects.2.2.2.2 ("expired")⟩

/-- Claim C9: provider detection resolves the overlap of the documented
key patterns correctly: every key starting with the Anthropic pattern is
detected as Anthropic, and OpenAI is detected exactly for keys that
start with the short pattern but not the Anthropic one. -/
theorem provider_key_detection :
    (∀ k : String, strStarts k ("sk-ant-") = true →
        inferProvider k = Provider.anthropic) ∧
    (∀ k : String, strStarts k ("sk-") = true → strStarts k ("sk-ant-") = false →
        inferProvider k = Provider.openai) := by
  constructor
  · intro k h
    simp [inferProvider, h]
  · intro k h1 h2
    simp [inferProvider, h1, h2]

/-- Witness for C9 on concrete Anthropic-style and OpenAI-style keys. -/
theorem provider_key_detection_witness :
    strStarts ("sk-ant-api03-xyz") ("sk-ant-") = true ∧
    inferProvider ("sk-ant-api03-xyz") = Provider.anthropic ∧
    strStarts ("sk-proj-xyz") ("sk-") = true ∧
    strStarts ("sk-proj-xyz") ("sk-ant-") = false ∧
    inferProvider ("sk-proj-xyz") = Provider.openai :=
  ⟨by decide, provider_key_detection.1 ("sk-ant-api03-xyz") (by decide),
    by decide, by decide,
    provider_key_detection.2 ("sk-proj-xyz") (by decide) (by decide)⟩

/-- Claim C10: header merging in the client's process call is key-by-key
with the per-request value winning on every conflicting key; with
replaceHeaders exactly the per-request headers are sent; excluded
default keys are removed; and a per-request call never mutates the
stored default headers. -/
theorem header_merging :
    (∀ (c : TokenlayClient) (o : ProcessOptions) (k v : String),
        o.headers k = some v → sentHeaders c o k = some v) ∧
    (∀ (c : TokenlayClient) (o : ProcessOptions) (k : String),
        o.replaceHeaders = false → o.headers k = none → k ∉ o.excludeHeaders →
        sentHeaders c o k = c.defaultHeaders k) ∧
    (∀ (c : TokenlayClient) (o : ProcessOptions),
        o.replaceHeaders = true → sentHeaders c o = o.headers) ∧
    (∀ (c : TokenlayClient) (o : ProcessOptions) (k : String),
        o.replaceHeaders = false → o.headers k = none → k ∈ o.excludeHeaders →
        sentHeaders c o k = none) ∧
    (∀ (c : TokenlayClient) (o : ProcessOptions),
        (process c o).2.defaultHeaders = c.defaultHeaders) := by
  refine ⟨?_, ?_, ?_, ?_, fun c o => rfl⟩
  · intro c o k v hv
    by_cases hr : o.replaceHeaders <;> simp [sentHeaders, hr, hv]
  · intro c o k hr hn hx
    simp [sentHeaders, hr, hn, hx]
  · intro c o hr
    funext k
    simp [sentHeaders, hr]
  · intro c o k hr hn hx
    simp [sentHeaders, hr, hn, hx]

/-- Witness for C10 on the documented example: the per-request user id
wins, the excluded organization default is dropped, and the stored
defaults are unchanged. -/
theorem header_merging_witness :
    opts0.headers ("User-ID") = some ("different-user-456") ∧
    sentHeaders client0 opts0 ("User-ID") = some ("different-user-456") ∧
    opts0.replaceHeaders = false ∧
    opts0.headers ("Organization") = none ∧
    ("Organization" : String) ∈ opts0.excludeHeaders ∧
    sentHeaders client0 opts0 ("Organization") = none ∧
    (process client0 opts0).2.defaultHeaders = client0.defaultHeaders :=
  ⟨by decide,
    header_merging.1 client0 opts0 ("User-ID") ("different-user-456") (by decide),
    rfl, by decide, by decide,
    header_merging.2.2.2.1 client0 opts0 ("Organization") rfl (by decide) (by decide),
    header_merging.2.2.2.2 client0 opts0⟩

end Tokenlay
